import Mathlib

/-!
Verification development for the `iam_cert` Ansible module
(`lib/ansible/modules/cloud/amazon/iam_cert.py`): a shallow embedding of the
reconciliation logic (`dup_check`, `cert_meta`, `cert_action`, the tail of
`main`) over an explicit model of the remote IAM service, together with
theorems about the claims of the specification.

Modelling conventions:
- Python `None`-able string parameters become `Option String`.
- The remote IAM service is a list of certificate records plus an
  error-injection set `failCalls`: a remote call contained in `failCalls`
  raises `BotoServerError` with message `errMsg` (spec: "Each call may fail
  with a provider-specific error").  Metadata generated by the service on
  upload (id, dates) comes from the `fresh*` fields.
- Every remote call issued is recorded in a trace, failed calls included.
- `module.exit_json` / `module.fail_json` terminate the module with a
  payload; uncaught Python exceptions (the `ValueError` raised by
  `list.index`, `UnboundLocalError` for unassigned locals) are a separate
  terminal outcome.
-/

namespace IamCert

/-- A server certificate stored in the remote IAM service. -/
structure CertRecord where
  name : String
  body : String
  path : String
  certId : String
  uploadDate : String
  expiration : String
deriving Repr, DecidableEq

/-- The remote calls the module can issue (trace alphabet). -/
inductive RemoteCall where
  | getAllServerCerts : RemoteCall
  | getServerCertificate (name : Option String) : RemoteCall
  | uploadServerCert (name cert key chain : Option String) (path : String) : RemoteCall
  | updateServerCert (name newName newPath : Option String) : RemoteCall
  | deleteServerCert (name : Option String) : RemoteCall
deriving Repr, DecidableEq

/-- Which remote calls mutate the remote service (everything except the
metadata fetches). -/
def RemoteCall.isMutating : RemoteCall → Bool
  | RemoteCall.uploadServerCert _ _ _ _ _ => true
  | RemoteCall.updateServerCert _ _ _ => true
  | RemoteCall.deleteServerCert _ => true
  | _ => false

/-- The remote IAM service: stored certificates, plus the model of
provider-side behaviour (injected failures, generated metadata). -/
structure Iam where
  certs : List CertRecord
  failCalls : List RemoteCall
  errMsg : String
  freshId : String
  freshDate : String
  freshExp : String
deriving Repr, DecidableEq

/-- Execution context threaded through the module: current remote state and
the trace of calls issued so far. -/
structure Ctx where
  iam : Iam
  calls : List RemoteCall
deriving Repr, DecidableEq

/-- Result of one remote call: success with a value, or `BotoServerError`.
Either way the context (trace included) is returned. -/
inductive CallOut (α : Type) where
  | ok (a : α) (ctx : Ctx) : CallOut α
  | botoErr (msg : String) (ctx : Ctx) : CallOut α
deriving Repr, DecidableEq

/-- The trace of a call result. -/
def CallOut.callsOf {α : Type} : CallOut α → List RemoteCall
  | CallOut.ok _ c => c.calls
  | CallOut.botoErr _ c => c.calls

/-- JSON-ish values appearing in `exit_json` / `fail_json` payloads. -/
inductive PyVal where
  | none : PyVal
  | bool (b : Bool) : PyVal
  | str (s : String) : PyVal
  | olist (xs : List (Option String)) : PyVal
deriving Repr, DecidableEq

/-- Terminal outcome of a module invocation. -/
inductive Outcome where
  | exitJson (payload : List (String × PyVal)) : Outcome
  | failJson (payload : List (String × PyVal)) : Outcome
  | botoRaised (msg : String) : Outcome
  | pyError (msg : String) : Outcome
  | finished : Outcome
deriving Repr, DecidableEq

/-- Outcome of `cert_action` / `main` together with the final context. -/
structure ActionResult where
  outcome : Outcome
  ctx : Ctx
deriving Repr, DecidableEq

/-- Python `str.replace(CR, empty)`: drop all carriage returns. -/
def stripCR (s : String) : String :=
  String.mk (s.data.filter (fun ch => ch != '\r'))

/-- Python `list.index`: index of the first occurrence, if any. -/
def listIndex (xs : List String) (x : String) : Option Nat :=
  match xs with
  | [] => Option.none
  | y :: ys =>
    if y == x then Option.some 0
    else
      match listIndex ys x with
      | Option.some j => Option.some (j + 1)
      | Option.none => Option.none

/-- Python `v in xs` for a possibly-`None` string `v` against a list of
strings (`None` is never a member). -/
def optMem (v : Option String) (xs : List String) : Bool :=
  match v with
  | Option.none => false
  | Option.some s => xs.contains s

/-- Python truthiness of a possibly-`None` string. -/
def truthy : Option String → Bool
  | Option.none => false
  | Option.some s => !s.isEmpty

/-- Python `"%s" % v` rendering of a possibly-`None` string. -/
def pyStr : Option String → String
  | Option.none => "None"
  | Option.some s => s

/-- A possibly-`None` string as a payload value. -/
def optVal : Option String → PyVal
  | Option.none => PyVal.none
  | Option.some s => PyVal.str s

/-- Look up a stored certificate by name (first match). -/
def lookupCert (certs : List CertRecord) (n : String) : Option CertRecord :=
  certs.find? (fun r => r.name == n)

/-- The stored body reported for name `n` (the first record with that name). -/
def bodyOf (certs : List CertRecord) (n : String) : String :=
  match lookupCert certs n with
  | Option.some r => r.body
  | Option.none => ""

/-- `iam.get_server_certificate(name)`: read-only fetch of one record. -/
def get_server_certificate (ctx : Ctx) (name : Option String) : CallOut CertRecord :=
  let call := RemoteCall.getServerCertificate name
  let ctx1 : Ctx := ⟨ctx.iam, ctx.calls ++ [call]⟩
  if ctx.iam.failCalls.contains call then CallOut.botoErr ctx.iam.errMsg ctx1
  else
    match name with
    | Option.none => CallOut.botoErr "ValidationError: certificate name must be a string" ctx1
    | Option.some n =>
      match lookupCert ctx.iam.certs n with
      | Option.some r => CallOut.ok r ctx1
      | Option.none =>
        CallOut.botoErr ("NoSuchEntity: the server certificate with name " ++ n ++ " cannot be found") ctx1

/-- `iam.upload_server_cert(name, cert, key, cert_chain=chain, path=cpath)`:
stores a new record whose id and dates the service generates. -/
def upload_server_cert (ctx : Ctx) (name cert key chain : Option String) (path : String) : CallOut Unit :=
  let call := RemoteCall.uploadServerCert name cert key chain path
  let ctx1 : Ctx := ⟨ctx.iam, ctx.calls ++ [call]⟩
  if ctx.iam.failCalls.contains call then CallOut.botoErr ctx.iam.errMsg ctx1
  else
    match name, cert, key with
    | Option.some n, Option.some c, Option.some _ =>
      CallOut.ok () ⟨{ ctx1.iam with
        certs := ctx1.iam.certs ++
          [⟨n, c, path, ctx.iam.freshId, ctx.iam.freshDate, ctx.iam.freshExp⟩] }, ctx1.calls⟩
    | _, _, _ => CallOut.botoErr "ValidationError: missing required parameter" ctx1

/-- Effect of a successful rename/move on one record. -/
def applyUpdate (newName newPath : Option String) (n : String) (r : CertRecord) : CertRecord :=
  if r.name == n then { r with name := newName.getD r.name, path := newPath.getD r.path }
  else r

/-- `iam.update_server_cert(name, new_cert_name=..., new_path=...)`. -/
def update_server_cert (ctx : Ctx) (name newName newPath : Option String) : CallOut Unit :=
  let call := RemoteCall.updateServerCert name newName newPath
  let ctx1 : Ctx := ⟨ctx.iam, ctx.calls ++ [call]⟩
  if ctx.iam.failCalls.contains call then CallOut.botoErr ctx.iam.errMsg ctx1
  else
    match name with
    | Option.none => CallOut.botoErr "ValidationError: certificate name must be a string" ctx1
    | Option.some n =>
      match lookupCert ctx.iam.certs n with
      | Option.none =>
        CallOut.botoErr ("NoSuchEntity: the server certificate with name " ++ n ++ " cannot be found") ctx1
      | Option.some _ =>
        CallOut.ok () ⟨{ ctx1.iam with certs := ctx1.iam.certs.map (applyUpdate newName newPath n) }, ctx1.calls⟩

/-- `iam.delete_server_cert(name)`. -/
def delete_server_cert (ctx : Ctx) (name : Option String) : CallOut Unit :=
  let call := RemoteCall.deleteServerCert name
  let ctx1 : Ctx := ⟨ctx.iam, ctx.calls ++ [call]⟩
  if ctx.iam.failCalls.contains call then CallOut.botoErr ctx.iam.errMsg ctx1
  else
    match name with
    | Option.none => CallOut.botoErr "ValidationError: certificate name must be a string" ctx1
    | Option.some n =>
      match lookupCert ctx.iam.certs n with
      | Option.none =>
        CallOut.botoErr ("NoSuchEntity: the server certificate with name " ++ n ++ " cannot be found") ctx1
      | Option.some _ =>
        CallOut.ok () ⟨{ ctx1.iam with certs := ctx1.iam.certs.filter (fun r => !(r.name == n)) }, ctx1.calls⟩

/-- `cert_meta(iam, name)`: five separate `get_server_certificate` calls
returning (path, body, id, upload date, expiration). -/
def cert_meta (ctx : Ctx) (name : Option String) :
    CallOut (String × String × String × String × String) :=
  match get_server_certificate ctx name with
  | CallOut.botoErr m c => CallOut.botoErr m c
  | CallOut.ok r1 c1 =>
    match get_server_certificate c1 name with
    | CallOut.botoErr m c => CallOut.botoErr m c
    | CallOut.ok r2 c2 =>
      match get_server_certificate c2 name with
      | CallOut.botoErr m c => CallOut.botoErr m c
      | CallOut.ok r3 c3 =>
        match get_server_certificate c3 name with
        | CallOut.botoErr m c => CallOut.botoErr m c
        | CallOut.ok r4 c4 =>
          match get_server_certificate c4 name with
          | CallOut.botoErr m c => CallOut.botoErr m c
          | CallOut.ok r5 c5 =>
            CallOut.ok (r1.path, r2.body, r3.certId, r4.uploadDate, r5.expiration) c5

/-- Failure message of the name-collision branch of `dup_check`. -/
def conflictMsg (n : String) : String :=
  "A cert with the name " ++ n ++ " already exists and has a different certificate body associated with it. Certificates cannot have the same name"

/-- Failure message of the duplicate-body branch of `dup_check`. -/
def dupMsg (n : String) : String :=
  "This certificate already exists under the name " ++ n

/-- Message of the no-op present branch of `cert_action`. -/
def noChangeMsg : String := "No new path or name specified. No changes made"

/-- Message of the already-absent branch of `cert_action`. -/
def absentMsg (name : Option String) : String :=
  "Certificate with the name " ++ pyStr name ++ " already absent"

/-- Result of `dup_check`: a returned update flag, a `fail_json` exit, or an
uncaught Python exception. -/
inductive DupResult where
  | ok (update : Bool) : DupResult
  | fail (payload : List (String × PyVal)) : DupResult
  | exn (msg : String) : DupResult
deriving Repr, DecidableEq

/-- Outcome of one iteration of the `for i_name in [name, new_name]` loop in
`dup_check`. -/
inductive DupStep where
  | next : DupStep
  | setUpdate : DupStep
  | fail (payload : List (String × PyVal)) : DupStep
  | exn (msg : String) : DupStep
deriving Repr, DecidableEq

/-- One iteration of the loop body of `dup_check`.  Note the source wraps
`orig_cert_names.index(i_name)` in `try/except NameError`, but a missing
element makes `list.index` raise `ValueError`, which that clause does not
catch: the exception escapes (`DupStep.exn`). -/
def dupStep (iName : Option String) (cert : Option String)
    (origCertNames origCertBodies : List String) : DupStep :=
  match iName with
  | Option.none => DupStep.next
  | Option.some n =>
    match cert with
    | Option.some c =>
      match listIndex origCertNames n with
      | Option.none => DupStep.exn ("ValueError: " ++ n ++ " is not in list")
      | Option.some cIndex =>
        match origCertBodies.get? cIndex with
        | Option.none => DupStep.exn "IndexError: list index out of range"
        | Option.some ob =>
          if stripCR ob == stripCR c then DupStep.setUpdate
          else DupStep.fail [("changed", PyVal.bool false), ("msg", PyVal.str (conflictMsg n))]
    | Option.none => DupStep.setUpdate

/-- The `for crt_name, crt_body in zip(...)` loop of the duplicate-body
branch: fail on the first stored body equal (verbatim) to `cert`. -/
def dupScan (cert : String) : List (String × String) → DupResult
  | [] => DupResult.ok false
  | (n, b) :: rest =>
    if b == cert then DupResult.fail [("changed", PyVal.bool false), ("msg", PyVal.str (dupMsg n))]
    else dupScan cert rest

/-- `dup_check(module, iam, name, new_name, cert, orig_cert_names,
orig_cert_bodies, dup_ok)` (it issues no remote calls). -/
def dup_check (name newName cert : Option String)
    (origCertNames origCertBodies : List String) (dupOk : Bool) : DupResult :=
  if [name, newName].any (fun ct => optMem ct origCertNames) then
    match dupStep name cert origCertNames origCertBodies with
    | DupStep.setUpdate => DupResult.ok true
    | DupStep.fail p => DupResult.fail p
    | DupStep.exn m => DupResult.exn m
    | DupStep.next =>
      match dupStep newName cert origCertNames origCertBodies with
      | DupStep.setUpdate => DupResult.ok true
      | DupStep.fail p => DupResult.fail p
      | DupStep.exn m => DupResult.exn m
      | DupStep.next => DupResult.ok false
  else if optMem cert origCertBodies && !dupOk then
    dupScan (pyStr cert) (origCertNames.zip origCertBodies)
  else DupResult.ok false

/-- The update branch of `cert_action` (state=present, `dup_check` returned
True): fetch metadata, then rename and/or move, or report no change. -/
def presentUpdate (ctx : Ctx) (name newName newPath : Option String) : ActionResult :=
  match cert_meta ctx name with
  | CallOut.botoErr m c => ⟨Outcome.botoRaised m, c⟩
  | CallOut.ok (opath, ocert, _, uploadDate, exp) c =>
    if truthy newName && truthy newPath then
      match update_server_cert c name newName newPath with
      | CallOut.botoErr m c2 => ⟨Outcome.botoRaised m, c2⟩
      | CallOut.ok _ c2 =>
        ⟨Outcome.exitJson [("changed", PyVal.bool true), ("original_name", optVal name),
          ("new_name", optVal newName), ("original_path", PyVal.str opath),
          ("new_path", optVal newPath), ("cert_body", PyVal.str ocert),
          ("upload_date", PyVal.str uploadDate), ("expiration_date", PyVal.str exp)], c2⟩
    else if truthy newName then
      match update_server_cert c name newName Option.none with
      | CallOut.botoErr m c2 => ⟨Outcome.botoRaised m, c2⟩
      | CallOut.ok _ c2 =>
        ⟨Outcome.exitJson [("changed", PyVal.bool true), ("original_name", optVal name),
          ("new_name", optVal newName), ("cert_path", PyVal.str opath),
          ("cert_body", PyVal.str ocert), ("upload_date", PyVal.str uploadDate),
          ("expiration_date", PyVal.str exp)], c2⟩
    else if truthy newPath then
      match update_server_cert c name Option.none newPath with
      | CallOut.botoErr m c2 => ⟨Outcome.botoRaised m, c2⟩
      | CallOut.ok _ c2 =>
        ⟨Outcome.exitJson [("changed", PyVal.bool true), ("name", optVal newName),
          ("original_path", PyVal.str opath), ("new_path", optVal newPath),
          ("cert_body", PyVal.str ocert), ("upload_date", PyVal.str uploadDate),
          ("expiration_date", PyVal.str exp)], c2⟩
    else
      ⟨Outcome.exitJson [("changed", PyVal.bool false), ("name", optVal name),
        ("cert_path", PyVal.str opath), ("cert_body", PyVal.str ocert),
        ("upload_date", PyVal.str uploadDate), ("expiration_date", PyVal.str exp),
        ("msg", PyVal.str noChangeMsg)], c⟩

/-- The create branch of `cert_action` (state=present, no update): upload,
then re-fetch metadata. -/
def presentCreate (ctx : Ctx) (name : Option String) (cpath : String)
    (cert key chain : Option String) : ActionResult :=
  match upload_server_cert ctx name cert key chain cpath with
  | CallOut.botoErr m c => ⟨Outcome.botoRaised m, c⟩
  | CallOut.ok _ c =>
    match cert_meta c name with
    | CallOut.botoErr m c2 => ⟨Outcome.botoRaised m, c2⟩
    | CallOut.ok (opath, ocert, _, uploadDate, exp) c2 =>
      ⟨Outcome.exitJson [("changed", PyVal.bool true), ("name", optVal name),
        ("cert_path", PyVal.str opath), ("cert_body", PyVal.str ocert),
        ("upload_date", PyVal.str uploadDate), ("expiration_date", PyVal.str exp)], c2⟩

/-- The absent branch of `cert_action`. -/
def absentAction (ctx : Ctx) (name : Option String) (origCertNames : List String) : ActionResult :=
  if optMem name origCertNames then
    match delete_server_cert ctx name with
    | CallOut.botoErr m c => ⟨Outcome.botoRaised m, c⟩
    | CallOut.ok _ c =>
      ⟨Outcome.exitJson [("changed", PyVal.bool true), ("deleted_cert", optVal name)], c⟩
  else ⟨Outcome.exitJson [("changed", PyVal.bool false), ("msg", PyVal.str (absentMsg name))], ctx⟩

/-- `cert_action(module, iam, name, cpath, new_name, new_path, state, cert,
key, chain, orig_cert_names, orig_cert_bodies, dup_ok)`. -/
def cert_action (ctx : Ctx) (name : Option String) (cpath : String)
    (newName newPath : Option String) (state : String)
    (cert key chain : Option String)
    (origCertNames origCertBodies : List String) (dupOk : Bool) : ActionResult :=
  if state == "present" then
    match dup_check name newName cert origCertNames origCertBodies dupOk with
    | DupResult.fail p => ⟨Outcome.failJson p, ctx⟩
    | DupResult.exn m => ⟨Outcome.pyError m, ctx⟩
    | DupResult.ok true => presentUpdate ctx name newName newPath
    | DupResult.ok false => presentCreate ctx name cpath cert key chain
  else if state == "absent" then absentAction ctx name origCertNames
  else ⟨Outcome.finished, ctx⟩

/-- The module parameters (post `AnsibleModule` parsing, defaults applied). -/
structure Params where
  state : String
  name : Option String
  path : String
  newNameParam : Option String
  newPathParam : Option String
  cert : Option String
  key : Option String
  certChain : Option String
  dupOk : Bool
deriving Repr, DecidableEq

/-- `main`'s `if new_name == name: new_name = None` normalization. -/
def normNewName (p : Params) : Option String :=
  if p.newNameParam == p.name then Option.none else p.newNameParam

/-- `main`'s `if new_path == path: new_path = None` normalization. -/
def normNewPath (p : Params) : Option String :=
  if p.newPathParam == Option.some p.path then Option.none else p.newPathParam

/-- Local-variable binding of `cert` / `key` in `main`: for state=present the
local is assigned only when the parameter is non-`None` (reading an
unassigned local raises `UnboundLocalError`); otherwise it is `None`. -/
def bindPresent (state : String) (v : Option String) : Option (Option String) :=
  if state == "present" then
    match v with
    | Option.some s => Option.some (Option.some s)
    | Option.none => Option.none
  else Option.some Option.none

/-- Fetch the stored body of each name in turn (`orig_bodies`). -/
def fetchBodies (ctx : Ctx) : List String → CallOut (List String)
  | [] => CallOut.ok [] ctx
  | n :: rest =>
    match get_server_certificate ctx (Option.some n) with
    | CallOut.botoErr m c => CallOut.botoErr m c
    | CallOut.ok r c =>
      match fetchBodies c rest with
      | CallOut.botoErr m c2 => CallOut.botoErr m c2
      | CallOut.ok bs c2 => CallOut.ok (r.body :: bs) c2

/-- `orig_certs` / `orig_bodies` fetch in `main`: one list call, then one
`get_server_certificate` per stored name. -/
def fetchInventory (ctx : Ctx) : CallOut (List String × List String) :=
  let ctx1 : Ctx := ⟨ctx.iam, ctx.calls ++ [RemoteCall.getAllServerCerts]⟩
  if ctx.iam.failCalls.contains RemoteCall.getAllServerCerts then
    CallOut.botoErr ctx.iam.errMsg ctx1
  else
    let names := ctx.iam.certs.map (fun r => r.name)
    match fetchBodies ctx1 names with
    | CallOut.botoErr m c => CallOut.botoErr m c
    | CallOut.ok bodies c => CallOut.ok (names, bodies) c

/-- The `except boto.exception.BotoServerError` handler at the bottom of
`main`: `module.fail_json(changed=changed, msg=str(err), debug=[cert,key])`. -/
def wrapBoto (cert key : Option String) (r : ActionResult) : ActionResult :=
  match r.outcome with
  | Outcome.botoRaised m =>
    ⟨Outcome.failJson [("changed", PyVal.bool false), ("msg", PyVal.str m),
      ("debug", PyVal.olist [cert, key])], r.ctx⟩
  | _ => r

/-- The tail of `main` (after connection setup): parameter reads, the
conditional `cert`/`key` local bindings, the inventory fetch, the
`new_name`/`new_path` normalization, and the guarded `cert_action` call.
A `BotoServerError` escaping the inventory fetch is not caught by any
handler, so it surfaces as an uncaught exception. -/
def mainRun (p : Params) (iam : Iam) : ActionResult :=
  match fetchInventory ⟨iam, []⟩ with
  | CallOut.botoErr m c => ⟨Outcome.pyError ("uncaught BotoServerError: " ++ m), c⟩
  | CallOut.ok (origCerts, origBodies) c =>
    match bindPresent p.state p.cert with
    | Option.none => ⟨Outcome.pyError "UnboundLocalError: local variable cert referenced before assignment", c⟩
    | Option.some cert =>
      match bindPresent p.state p.key with
      | Option.none => ⟨Outcome.pyError "UnboundLocalError: local variable key referenced before assignment", c⟩
      | Option.some key =>
        wrapBoto cert key (cert_action c p.name p.path (normNewName p) (normNewPath p)
          p.state cert key p.certChain origCerts origBodies p.dupOk)

/-- The trace produced by a successful inventory fetch. -/
def fetchTrace (iam : Iam) : List RemoteCall :=
  RemoteCall.getAllServerCerts ::
    iam.certs.map (fun r => RemoteCall.getServerCertificate (Option.some r.name))

/-- The mutating remote calls of a trace. -/
def mutCalls (calls : List RemoteCall) : List RemoteCall :=
  calls.filter (fun c => c.isMutating)

/-- Number of mutating remote calls in a trace. -/
def mutCount (calls : List RemoteCall) : Nat :=
  (mutCalls calls).length

/-! ## List-level helper lemmas -/

theorem listIndex_mem {ns : List String} {x : String} {i : Nat}
    (h : listIndex ns x = Option.some i) : x ∈ ns := by
  induction ns generalizing i with
  | nil => simp [listIndex] at h
  | cons y ys ih =>
    rw [listIndex] at h
    by_cases hy : (y == x) = true
    · have hyx : y = x := beq_iff_eq.mp hy
      subst hyx
      exact List.mem_cons_self _ _
    · simp only [hy, if_false] at h
      cases hli : listIndex ys x with
      | none => rw [hli] at h; exact Option.noConfusion h
      | some j => exact List.mem_cons_of_mem _ (ih hli)

theorem listIndex_get {ns : List String} {x : String} {i : Nat}
    (h : listIndex ns x = Option.some i) : ns[i]? = Option.some x := by
  induction ns generalizing i with
  | nil => simp [listIndex] at h
  | cons y ys ih =>
    rw [listIndex] at h
    by_cases hy : (y == x) = true
    · simp only [hy, if_true, Option.some.injEq] at h
      subst h
      simp [beq_iff_eq.mp hy]
    · simp only [hy, if_false] at h
      cases hli : listIndex ys x with
      | none => rw [hli] at h; exact Option.noConfusion h
      | some j =>
        rw [hli] at h
        have h2 : Option.some (j + 1) = Option.some i := h
        injection h2 with h3
        subst h3
        simpa using ih hli

theorem listIndex_of_mem {ns : List String} {x : String}
    (h : x ∈ ns) : ∃ i, listIndex ns x = Option.some i := by
  induction ns with
  | nil => simp at h
  | cons y ys ih =>
    by_cases hy : (y == x) = true
    · exact ⟨0, by simp [listIndex, hy]⟩
    · have hx : x ∈ ys := by
        rcases List.mem_cons.mp h with h1 | h1
        · exact absurd (beq_iff_eq.mpr h1.symm) hy
        · exact h1
      obtain ⟨j, hj⟩ := ih hx
      exact ⟨j + 1, by simp [listIndex, hy, hj]⟩

theorem lookupCert_isSome_of_mem {certs : List CertRecord} {n : String}
    (h : n ∈ certs.map (fun r => r.name)) : ∃ r, lookupCert certs n = Option.some r := by
  obtain ⟨r0, hr0, hn⟩ := List.mem_map.mp h
  have : (certs.find? (fun r => r.name == n)).isSome = true :=
    List.find?_isSome.mpr ⟨r0, hr0, beq_iff_eq.mpr hn⟩
  obtain ⟨r, hr⟩ := Option.isSome_iff_exists.mp this
  exact ⟨r, hr⟩

theorem lookupCert_props {certs : List CertRecord} {n : String} {r : CertRecord}
    (h : lookupCert certs n = Option.some r) : r ∈ certs ∧ r.name = n := by
  unfold lookupCert at h
  have h1 : r ∈ certs := List.mem_of_find?_eq_some h
  have h2 := List.find?_some h
  exact ⟨h1, beq_iff_eq.mp h2⟩

theorem mem_names_of_lookupCert {certs : List CertRecord} {n : String} {r : CertRecord}
    (h : lookupCert certs n = Option.some r) : n ∈ certs.map (fun r => r.name) := by
  obtain ⟨hmem, hname⟩ := lookupCert_props h
  exact List.mem_map.mpr ⟨r, hmem, hname⟩

theorem not_mem_names_of_lookupCert_none {certs : List CertRecord} {n : String}
    (h : lookupCert certs n = Option.none) : n ∉ certs.map (fun r => r.name) := by
  intro hmem
  obtain ⟨r, hr⟩ := lookupCert_isSome_of_mem hmem
  rw [h] at hr
  exact Option.noConfusion hr

theorem bodyOf_lookupCert {certs : List CertRecord} {n : String} {r : CertRecord}
    (h : lookupCert certs n = Option.some r) : bodyOf certs n = r.body := by
  simp [bodyOf, h]

theorem bodies_not_mem {certs : List CertRecord} {c : String}
    (h : ∀ r ∈ certs, r.body ≠ c) :
    c ∉ (certs.map (fun r => r.name)).map (bodyOf certs) := by
  intro hmem
  obtain ⟨m, hm, hbody⟩ := List.mem_map.mp hmem
  obtain ⟨r, hr⟩ := lookupCert_isSome_of_mem hm
  obtain ⟨hrmem, _⟩ := lookupCert_props hr
  rw [bodyOf_lookupCert hr] at hbody
  exact h r hrmem hbody

theorem bodies_eq_of_nodup {certs : List CertRecord}
    (h : (certs.map (fun r => r.name)).Nodup) :
    (certs.map (fun r => r.name)).map (bodyOf certs) = certs.map (fun r => r.body) := by
  induction certs with
  | nil => simp
  | cons r rest ih =>
    simp only [List.map_cons] at h ⊢
    obtain ⟨hnot, hnd⟩ := List.nodup_cons.mp h
    have hhead : bodyOf (r :: rest) r.name = r.body := by
      have hfind : lookupCert (r :: rest) r.name = Option.some r := by
        unfold lookupCert
        exact List.find?_cons_of_pos _ (beq_iff_eq.mpr rfl)
      simp [bodyOf, hfind]
    have htail : (rest.map (fun r => r.name)).map (bodyOf (r :: rest)) =
        (rest.map (fun r => r.name)).map (bodyOf rest) := by
      apply List.map_congr_left
      intro m hm
      have hne : ¬((fun q => q.name == m) r) = true := by
        intro hb
        exact hnot ((beq_iff_eq.mp hb).symm ▸ hm)
      have hstep : lookupCert (r :: rest) m = lookupCert rest m := by
        unfold lookupCert
        exact List.find?_cons_of_neg _ hne
      simp [bodyOf, hstep]
    rw [hhead, htail, ih hnd]

/-! ## `dup_check` lemmas -/

theorem dup_check_update {names bodies : List String} {n c b : String} {i : Nat}
    (hi : listIndex names n = Option.some i) (hb : bodies[i]? = Option.some b)
    (heq : stripCR b = stripCR c) (nn : Option String) (d : Bool) :
    dup_check (Option.some n) nn (Option.some c) names bodies d = DupResult.ok true := by
  have hc : n ∈ names := listIndex_mem hi
  simp [dup_check, optMem, hc, dupStep, hi, hb, heq]

theorem dup_check_conflict {names bodies : List String} {n c b : String} {i : Nat}
    (hi : listIndex names n = Option.some i) (hb : bodies[i]? = Option.some b)
    (hne : stripCR b ≠ stripCR c) (nn : Option String) (d : Bool) :
    dup_check (Option.some n) nn (Option.some c) names bodies d =
      DupResult.fail [("changed", PyVal.bool false), ("msg", PyVal.str (conflictMsg n))] := by
  have hc : n ∈ names := listIndex_mem hi
  simp [dup_check, optMem, hc, dupStep, hi, hb, hne]

theorem dup_check_create {names bodies : List String} {n c : String}
    (hn : n ∉ names) (hc : c ∉ bodies) (d : Bool) :
    dup_check (Option.some n) Option.none (Option.some c) names bodies d =
      DupResult.ok false := by
  simp [dup_check, optMem, hn, hc]

theorem dup_check_dupbody {names bodies : List String} {n c : String}
    (hn : n ∉ names) (hc : c ∈ bodies) :
    dup_check (Option.some n) Option.none (Option.some c) names bodies false =
      dupScan c (names.zip bodies) := by
  simp [dup_check, optMem, hn, hc, pyStr]

theorem dupScan_fail {c : String} {l : List (String × String)}
    (h : ∃ q ∈ l, q.2 = c) :
    ∃ nm, dupScan c l =
        DupResult.fail [("changed", PyVal.bool false), ("msg", PyVal.str (dupMsg nm))] ∧
      (nm, c) ∈ l := by
  induction l with
  | nil => simp at h
  | cons q rest ih =>
    obtain ⟨qn, qb⟩ := q
    by_cases hq : (qb == c) = true
    · refine ⟨qn, by simp [dupScan, hq], ?_⟩
      have : qb = c := beq_iff_eq.mp hq
      subst this
      exact List.mem_cons_self _ _
    · have h2 : ∃ q ∈ rest, q.2 = c := by
        rcases h with ⟨q0, hq0, hc0⟩
        rcases List.mem_cons.mp hq0 with h1 | h1
        · subst h1
          exact absurd (beq_iff_eq.mpr hc0) hq
        · exact ⟨q0, h1, hc0⟩
      obtain ⟨nm, hscan, hmem⟩ := ih h2
      exact ⟨nm, by simp [dupScan, hq, hscan], List.mem_cons_of_mem _ hmem⟩

/-! ## Remote-call lemmas (successful executions) -/

theorem get_ok {iam : Iam} {n : String} {r : CertRecord} {calls : List RemoteCall}
    (hfail : iam.failCalls = []) (hr : lookupCert iam.certs n = Option.some r) :
    get_server_certificate ⟨iam, calls⟩ (Option.some n) =
      CallOut.ok r ⟨iam, calls ++ [RemoteCall.getServerCertificate (Option.some n)]⟩ := by
  simp [get_server_certificate, hfail, hr]

theorem upload_ok {iam : Iam} {calls : List RemoteCall} (n c k : String)
    (chain : Option String) (path : String) (hfail : iam.failCalls = []) :
    upload_server_cert ⟨iam, calls⟩ (Option.some n) (Option.some c) (Option.some k) chain path =
      CallOut.ok ()
        ⟨{ iam with certs := iam.certs ++ [⟨n, c, path, iam.freshId, iam.freshDate, iam.freshExp⟩] },
          calls ++ [RemoteCall.uploadServerCert (Option.some n) (Option.some c) (Option.some k) chain path]⟩ := by
  simp [upload_server_cert, hfail]

theorem update_ok {iam : Iam} {n : String} {r : CertRecord} {calls : List RemoteCall}
    (nn np : Option String) (hfail : iam.failCalls = []) (hr : lookupCert iam.certs n = Option.some r) :
    update_server_cert ⟨iam, calls⟩ (Option.some n) nn np =
      CallOut.ok () ⟨{ iam with certs := iam.certs.map (applyUpdate nn np n) },
        calls ++ [RemoteCall.updateServerCert (Option.some n) nn np]⟩ := by
  simp [update_server_cert, hfail, hr]

theorem delete_ok {iam : Iam} {n : String} {r : CertRecord} {calls : List RemoteCall}
    (hfail : iam.failCalls = []) (hr : lookupCert iam.certs n = Option.some r) :
    delete_server_cert ⟨iam, calls⟩ (Option.some n) =
      CallOut.ok () ⟨{ iam with certs := iam.certs.filter (fun q => !(q.name == n)) },
        calls ++ [RemoteCall.deleteServerCert (Option.some n)]⟩ := by
  simp [delete_server_cert, hfail, hr]

theorem cert_meta_ok {iam : Iam} {n : String} {r : CertRecord} {calls : List RemoteCall}
    (hfail : iam.failCalls = []) (hr : lookupCert iam.certs n = Option.some r) :
    cert_meta ⟨iam, calls⟩ (Option.some n) =
      CallOut.ok (r.path, r.body, r.certId, r.uploadDate, r.expiration)
        ⟨iam, calls ++ [RemoteCall.getServerCertificate (Option.some n),
          RemoteCall.getServerCertificate (Option.some n),
          RemoteCall.getServerCertificate (Option.some n),
          RemoteCall.getServerCertificate (Option.some n),
          RemoteCall.getServerCertificate (Option.some n)]⟩ := by
  simp [cert_meta, get_ok hfail hr]

theorem fetchBodies_ok {iam : Iam} (hfail : iam.failCalls = []) :
    ∀ (ns : List String) (calls : List RemoteCall),
      (∀ n ∈ ns, n ∈ iam.certs.map (fun r => r.name)) →
      fetchBodies ⟨iam, calls⟩ ns =
        CallOut.ok (ns.map (bodyOf iam.certs))
          ⟨iam, calls ++ ns.map (fun n => RemoteCall.getServerCertificate (Option.some n))⟩ := by
  intro ns
  induction ns with
  | nil => intro calls _; simp [fetchBodies]
  | cons n rest ih =>
    intro calls hmem
    obtain ⟨r, hr⟩ := lookupCert_isSome_of_mem (hmem n (List.mem_cons_self _ _))
    have hm2 : ∀ m ∈ rest, m ∈ iam.certs.map (fun q => q.name) :=
      fun m hm => hmem m (List.mem_cons_of_mem _ hm)
    have ih2 : ∀ cs : List RemoteCall, fetchBodies ⟨iam, cs⟩ rest =
        CallOut.ok (rest.map (bodyOf iam.certs))
          ⟨iam, cs ++ rest.map (fun m => RemoteCall.getServerCertificate (Option.some m))⟩ :=
      fun cs => ih cs hm2
    simp [fetchBodies, get_ok hfail hr, ih2, bodyOf, hr]

theorem fetchInventory_ok {iam : Iam} (hfail : iam.failCalls = []) :
    fetchInventory ⟨iam, []⟩ =
      CallOut.ok (iam.certs.map (fun r => r.name),
          (iam.certs.map (fun r => r.name)).map (bodyOf iam.certs))
        ⟨iam, fetchTrace iam⟩ := by
  rw [fetchInventory]
  simp only [hfail]
  rw [fetchBodies_ok hfail _ _ (fun n hn => hn)]
  simp [fetchTrace, List.map_map]

/-! ## `mainRun` reduction lemmas -/

theorem mainRun_present {p : Params} {iam : Iam} {c k : String}
    (hstate : p.state = "present") (hcert : p.cert = Option.some c)
    (hkey : p.key = Option.some k) (hfail : iam.failCalls = []) :
    mainRun p iam =
      wrapBoto (Option.some c) (Option.some k)
        (cert_action ⟨iam, fetchTrace iam⟩ p.name p.path (normNewName p) (normNewPath p)
          p.state (Option.some c) (Option.some k) p.certChain
          (iam.certs.map (fun r => r.name))
          ((iam.certs.map (fun r => r.name)).map (bodyOf iam.certs)) p.dupOk) := by
  rw [mainRun, fetchInventory_ok hfail]
  simp [bindPresent, hstate, hcert, hkey]

theorem mainRun_absent {p : Params} {iam : Iam}
    (hstate : p.state = "absent") (hfail : iam.failCalls = []) :
    mainRun p iam =
      wrapBoto Option.none Option.none
        (cert_action ⟨iam, fetchTrace iam⟩ p.name p.path (normNewName p) (normNewPath p)
          p.state Option.none Option.none p.certChain
          (iam.certs.map (fun r => r.name))
          ((iam.certs.map (fun r => r.name)).map (bodyOf iam.certs)) p.dupOk) := by
  rw [mainRun, fetchInventory_ok hfail]
  simp [bindPresent, hstate]

/-! ## Mutating-call counting -/

theorem mutCalls_append (a b : List RemoteCall) :
    mutCalls (a ++ b) = mutCalls a ++ mutCalls b := by
  simp [mutCalls, List.filter_append]

theorem mutCalls_gets (l : List CertRecord) :
    mutCalls (l.map (fun r => RemoteCall.getServerCertificate (Option.some r.name))) = [] := by
  simp [mutCalls, RemoteCall.isMutating]

theorem mutCalls_fetchTrace (iam : Iam) : mutCalls (fetchTrace iam) = [] := by
  simp [fetchTrace, mutCalls, RemoteCall.isMutating]

theorem mutCalls_nil : mutCalls [] = [] := rfl

theorem mutCalls_cons_get (nm : Option String) (rest : List RemoteCall) :
    mutCalls (RemoteCall.getServerCertificate nm :: rest) = mutCalls rest := by
  simp [mutCalls, RemoteCall.isMutating]

theorem mutCalls_cons_getAll (rest : List RemoteCall) :
    mutCalls (RemoteCall.getAllServerCerts :: rest) = mutCalls rest := by
  simp [mutCalls, RemoteCall.isMutating]

theorem mutCalls_cons_upload (nm c k ch : Option String) (pa : String) (rest : List RemoteCall) :
    mutCalls (RemoteCall.uploadServerCert nm c k ch pa :: rest) =
      RemoteCall.uploadServerCert nm c k ch pa :: mutCalls rest := by
  simp [mutCalls, RemoteCall.isMutating]

theorem mutCalls_cons_update (nm nn np : Option String) (rest : List RemoteCall) :
    mutCalls (RemoteCall.updateServerCert nm nn np :: rest) =
      RemoteCall.updateServerCert nm nn np :: mutCalls rest := by
  simp [mutCalls, RemoteCall.isMutating]

theorem mutCalls_cons_delete (nm : Option String) (rest : List RemoteCall) :
    mutCalls (RemoteCall.deleteServerCert nm :: rest) =
      RemoteCall.deleteServerCert nm :: mutCalls rest := by
  simp [mutCalls, RemoteCall.isMutating]

/-! ## Claims -/

/-- Claim C2: for state=present, when the descriptor's name is stored in the
inventory with a body equal to the supplied body after removing carriage
returns from both, and neither new_name nor new_path is set, the module
exits with changed=false and the explanatory no-change message, and the
trace contains no mutating remote call. -/
theorem C2_noop_on_equal_body (p : Params) (iam : Iam) (n c k : String) (r : CertRecord)
    (hstate : p.state = "present") (hname : p.name = Option.some n)
    (hcert : p.cert = Option.some c) (hkey : p.key = Option.some k)
    (hnn : p.newNameParam = Option.none) (hnp : p.newPathParam = Option.none)
    (hfail : iam.failCalls = [])
    (hr : lookupCert iam.certs n = Option.some r)
    (hbody : stripCR r.body = stripCR c) :
    (mainRun p iam).outcome = Outcome.exitJson
        [("changed", PyVal.bool false), ("name", PyVal.str n),
         ("cert_path", PyVal.str r.path), ("cert_body", PyVal.str r.body),
         ("upload_date", PyVal.str r.uploadDate), ("expiration_date", PyVal.str r.expiration),
         ("msg", PyVal.str noChangeMsg)] ∧
      mutCalls (mainRun p iam).ctx.calls = [] := by
  have hnmem : n ∈ iam.certs.map (fun q => q.name) := mem_names_of_lookupCert hr
  obtain ⟨i, hi⟩ := listIndex_of_mem hnmem
  have hgi := listIndex_get hi
  have hbi : ((iam.certs.map (fun q => q.name)).map (bodyOf iam.certs))[i]? =
      Option.some r.body := by
    rw [List.getElem?_map, hgi]
    simp [bodyOf, hr]
  have hdup := dup_check_update hi hbi hbody Option.none p.dupOk
  simp only [List.map_map] at hdup
  have hnn2 : normNewName p = Option.none := by simp [normNewName, hnn]
  have hnp2 : normNewPath p = Option.none := by simp [normNewPath, hnp]
  rw [mainRun_present hstate hcert hkey hfail, hname, hnn2, hnp2, hstate]
  simp [cert_action, hdup, presentUpdate, cert_meta_ok hfail hr, truthy, optVal, wrapBoto,
    mutCalls_append, mutCalls_fetchTrace, mutCalls_cons_get, mutCalls_nil]

/-- Witness for C2 at a concrete input (stored body "BODY1", supplied body
"BODY1" followed by a carriage return). -/
theorem C2_noop_on_equal_body_witness :
    (mainRun
        ⟨"present", Option.some "alpha", "/", Option.none, Option.none,
          Option.some "BODY1\r", Option.some "K", Option.none, false⟩
        ⟨[⟨"alpha", "BODY1", "/", "id1", "d1", "e1"⟩], [], "boom", "fid", "fdate", "fexp"⟩).outcome =
      Outcome.exitJson
        [("changed", PyVal.bool false), ("name", PyVal.str "alpha"),
         ("cert_path", PyVal.str "/"), ("cert_body", PyVal.str "BODY1"),
         ("upload_date", PyVal.str "d1"), ("expiration_date", PyVal.str "e1"),
         ("msg", PyVal.str noChangeMsg)] ∧
      mutCalls (mainRun
        ⟨"present", Option.some "alpha", "/", Option.none, Option.none,
          Option.some "BODY1\r", Option.some "K", Option.none, false⟩
        ⟨[⟨"alpha", "BODY1", "/", "id1", "d1", "e1"⟩], [], "boom", "fid", "fdate", "fexp"⟩).ctx.calls = [] :=
  C2_noop_on_equal_body
    ⟨"present", Option.some "alpha", "/", Option.none, Option.none,
      Option.some "BODY1\r", Option.some "K", Option.none, false⟩
    ⟨[⟨"alpha", "BODY1", "/", "id1", "d1", "e1"⟩], [], "boom", "fid", "fdate", "fexp"⟩
    "alpha" "BODY1\r" "K" ⟨"alpha", "BODY1", "/", "id1", "d1", "e1"⟩
    rfl rfl rfl rfl rfl rfl rfl (by rfl) (by rfl)

/-- Claim C3: for state=present, when the descriptor's name is stored in the
inventory with a body that differs from the supplied body after removing
carriage returns from both, the module fails with the name-conflict message
naming the colliding certificate, and no mutating remote call is issued. -/
theorem C3_conflict_on_different_body (p : Params) (iam : Iam) (n c k : String) (r : CertRecord)
    (hstate : p.state = "present") (hname : p.name = Option.some n)
    (hcert : p.cert = Option.some c) (hkey : p.key = Option.some k)
    (hfail : iam.failCalls = [])
    (hr : lookupCert iam.certs n = Option.some r)
    (hbody : stripCR r.body ≠ stripCR c) :
    (mainRun p iam).outcome = Outcome.failJson
        [("changed", PyVal.bool false), ("msg", PyVal.str (conflictMsg n))] ∧
      mutCalls (mainRun p iam).ctx.calls = [] := by
  have hnmem : n ∈ iam.certs.map (fun q => q.name) := mem_names_of_lookupCert hr
  obtain ⟨i, hi⟩ := listIndex_of_mem hnmem
  have hgi := listIndex_get hi
  have hbi : ((iam.certs.map (fun q => q.name)).map (bodyOf iam.certs))[i]? =
      Option.some r.body := by
    rw [List.getElem?_map, hgi]
    simp [bodyOf, hr]
  have hdup := dup_check_conflict hi hbi hbody (normNewName p) p.dupOk
  simp only [List.map_map] at hdup
  rw [mainRun_present hstate hcert hkey hfail, hname, hstate]
  simp [cert_action, hdup, wrapBoto, mutCalls_fetchTrace]

/-- Witness for C3 at a concrete input (stored body "BODY1", supplied body
"OTHER"). -/
theorem C3_conflict_on_different_body_witness :
    (mainRun
        ⟨"present", Option.some "alpha", "/", Option.none, Option.none,
          Option.some "OTHER", Option.some "K", Option.none, false⟩
        ⟨[⟨"alpha", "BODY1", "/", "id1", "d1", "e1"⟩], [], "boom", "fid", "fdate", "fexp"⟩).outcome =
      Outcome.failJson
        [("changed", PyVal.bool false), ("msg", PyVal.str (conflictMsg "alpha"))] ∧
      mutCalls (mainRun
        ⟨"present", Option.some "alpha", "/", Option.none, Option.none,
          Option.some "OTHER", Option.some "K", Option.none, false⟩
        ⟨[⟨"alpha", "BODY1", "/", "id1", "d1", "e1"⟩], [], "boom", "fid", "fdate", "fexp"⟩).ctx.calls = [] :=
  C3_conflict_on_different_body
    ⟨"present", Option.some "alpha", "/", Option.none, Option.none,
      Option.some "OTHER", Option.some "K", Option.none, false⟩
    ⟨[⟨"alpha", "BODY1", "/", "id1", "d1", "e1"⟩], [], "boom", "fid", "fdate", "fexp"⟩
    "alpha" "OTHER" "K" ⟨"alpha", "BODY1", "/", "id1", "d1", "e1"⟩
    rfl rfl rfl rfl rfl rfl (by decide)

/-- Claim C4: for state=present, when neither the descriptor's name nor its
body occurs in the inventory (and no rename targets are given), the module
issues exactly one mutating call, the upload with name, body, key, chain and
path, and exits with changed=true reporting the resulting path, body and
dates. -/
theorem C4_create_when_fresh (p : Params) (iam : Iam) (n c k : String)
    (hstate : p.state = "present") (hname : p.name = Option.some n)
    (hcert : p.cert = Option.some c) (hkey : p.key = Option.some k)
    (hnn : p.newNameParam = Option.none) (hnp : p.newPathParam = Option.none)
    (hfail : iam.failCalls = [])
    (hfresh : lookupCert iam.certs n = Option.none)
    (hbody : ∀ r ∈ iam.certs, r.body ≠ c) :
    (mainRun p iam).outcome = Outcome.exitJson
        [("changed", PyVal.bool true), ("name", PyVal.str n),
         ("cert_path", PyVal.str p.path), ("cert_body", PyVal.str c),
         ("upload_date", PyVal.str iam.freshDate), ("expiration_date", PyVal.str iam.freshExp)] ∧
      mutCalls (mainRun p iam).ctx.calls =
        [RemoteCall.uploadServerCert (Option.some n) (Option.some c) (Option.some k)
          p.certChain p.path] := by
  have hnmem : n ∉ iam.certs.map (fun q => q.name) := not_mem_names_of_lookupCert_none hfresh
  have hcm : c ∉ (iam.certs.map (fun q => q.name)).map (bodyOf iam.certs) := bodies_not_mem hbody
  have hdup := dup_check_create hnmem hcm p.dupOk
  simp only [List.map_map] at hdup
  have hnn2 : normNewName p = Option.none := by simp [normNewName, hnn]
  have hnp2 : normNewPath p = Option.none := by simp [normNewPath, hnp]
  have hfail2 : ({ iam with certs := iam.certs ++
      [⟨n, c, p.path, iam.freshId, iam.freshDate, iam.freshExp⟩] } : Iam).failCalls = [] := hfail
  have hlook2 : lookupCert ({ iam with certs := iam.certs ++
        [⟨n, c, p.path, iam.freshId, iam.freshDate, iam.freshExp⟩] } : Iam).certs n =
      Option.some ⟨n, c, p.path, iam.freshId, iam.freshDate, iam.freshExp⟩ := by
    unfold lookupCert at hfresh ⊢
    simp only []
    rw [List.find?_append, hfresh]
    simp
  rw [mainRun_present hstate hcert hkey hfail, hname, hnn2, hnp2, hstate]
  simp [cert_action, hdup, presentCreate, upload_ok n c k p.certChain p.path hfail,
    cert_meta_ok hfail2 hlook2, optVal, wrapBoto, mutCalls_append, mutCalls_fetchTrace,
    mutCalls_cons_get, mutCalls_cons_upload, mutCalls_nil]

/-- Witness for C4 at a concrete input (empty inventory, upload of cert1). -/
theorem C4_create_when_fresh_witness :
    (mainRun
        ⟨"present", Option.some "cert1", "/", Option.none, Option.none,
          Option.some "X", Option.some "K", Option.none, false⟩
        ⟨[], [], "boom", "fid", "fdate", "fexp"⟩).outcome =
      Outcome.exitJson
        [("changed", PyVal.bool true), ("name", PyVal.str "cert1"),
         ("cert_path", PyVal.str "/"), ("cert_body", PyVal.str "X"),
         ("upload_date", PyVal.str "fdate"), ("expiration_date", PyVal.str "fexp")] ∧
      mutCalls (mainRun
        ⟨"present", Option.some "cert1", "/", Option.none, Option.none,
          Option.some "X", Option.some "K", Option.none, false⟩
        ⟨[], [], "boom", "fid", "fdate", "fexp"⟩).ctx.calls =
        [RemoteCall.uploadServerCert (Option.some "cert1") (Option.some "X") (Option.some "K")
          Option.none "/"] :=
  C4_create_when_fresh
    ⟨"present", Option.some "cert1", "/", Option.none, Option.none,
      Option.some "X", Option.some "K", Option.none, false⟩
    ⟨[], [], "boom", "fid", "fdate", "fexp"⟩
    "cert1" "X" "K" rfl rfl rfl rfl rfl rfl rfl rfl (by simp)

/-- Claim C5: for state=present with a fresh name but a body identical
(verbatim) to some stored certificate's body, and dup_ok false, the module
fails with the duplicate-content message reporting the clashing
certificate's name, and no mutating remote call is issued. -/
theorem C5_duplicate_body_rejected (p : Params) (iam : Iam) (n c k : String)
    (hstate : p.state = "present") (hname : p.name = Option.some n)
    (hcert : p.cert = Option.some c) (hkey : p.key = Option.some k)
    (hnn : p.newNameParam = Option.none)
    (hfail : iam.failCalls = []) (hdupok : p.dupOk = false)
    (hnd : (iam.certs.map (fun q => q.name)).Nodup)
    (hfresh : lookupCert iam.certs n = Option.none)
    (hdup : ∃ r ∈ iam.certs, r.body = c) :
    ∃ nm, (mainRun p iam).outcome = Outcome.failJson
        [("changed", PyVal.bool false), ("msg", PyVal.str (dupMsg nm))] ∧
      (∃ r ∈ iam.certs, r.name = nm ∧ r.body = c) ∧
      mutCalls (mainRun p iam).ctx.calls = [] := by
  have hnmem : n ∉ iam.certs.map (fun q => q.name) := not_mem_names_of_lookupCert_none hfresh
  have hbodies := bodies_eq_of_nodup hnd
  have hcmem : c ∈ (iam.certs.map (fun q => q.name)).map (bodyOf iam.certs) := by
    rw [hbodies]
    obtain ⟨r, hrm, hrb⟩ := hdup
    exact List.mem_map.mpr ⟨r, hrm, hrb⟩
  have hdc := dup_check_dupbody hnmem hcmem
  have hzip : (iam.certs.map (fun q => q.name)).zip
        ((iam.certs.map (fun q => q.name)).map (bodyOf iam.certs)) =
      iam.certs.map (fun q => (q.name, q.body)) := by
    rw [hbodies]
    exact List.zip_map' _ _ _
  have hex : ∃ q ∈ iam.certs.map (fun q => (q.name, q.body)), q.2 = c := by
    obtain ⟨r, hrm, hrb⟩ := hdup
    exact ⟨(r.name, r.body), List.mem_map.mpr ⟨r, hrm, rfl⟩, hrb⟩
  obtain ⟨nm, hscan, hmem⟩ := dupScan_fail hex
  rw [hzip, hscan] at hdc
  simp only [List.map_map] at hdc
  have hnn2 : normNewName p = Option.none := by simp [normNewName, hnn]
  refine ⟨nm, ?_, ?_, ?_⟩
  · rw [mainRun_present hstate hcert hkey hfail, hname, hnn2, hstate, hdupok]
    simp [cert_action, hdc, wrapBoto]
  · obtain ⟨r, hrm, hrp⟩ := List.mem_map.mp hmem
    refine ⟨r, hrm, ?_, ?_⟩
    · exact congrArg Prod.fst hrp
    · exact congrArg Prod.snd hrp
  · rw [mainRun_present hstate hcert hkey hfail, hname, hnn2, hstate, hdupok]
    simp [cert_action, hdc, wrapBoto, mutCalls_fetchTrace]

/-- Witness for C5 at a concrete input (body "BODY1" already stored under
the name "alpha"). -/
theorem C5_duplicate_body_rejected_witness :
    ∃ nm, (mainRun
        ⟨"present", Option.some "cert1", "/", Option.none, Option.none,
          Option.some "BODY1", Option.some "K", Option.none, false⟩
        ⟨[⟨"alpha", "BODY1", "/", "id1", "d1", "e1"⟩], [], "boom", "fid", "fdate", "fexp"⟩).outcome =
      Outcome.failJson
        [("changed", PyVal.bool false), ("msg", PyVal.str (dupMsg nm))] ∧
      (∃ r ∈ ([⟨"alpha", "BODY1", "/", "id1", "d1", "e1"⟩] : List CertRecord),
        r.name = nm ∧ r.body = "BODY1") ∧
      mutCalls (mainRun
        ⟨"present", Option.some "cert1", "/", Option.none, Option.none,
          Option.some "BODY1", Option.some "K", Option.none, false⟩
        ⟨[⟨"alpha", "BODY1", "/", "id1", "d1", "e1"⟩], [], "boom", "fid", "fdate", "fexp"⟩).ctx.calls = [] :=
  C5_duplicate_body_rejected
    ⟨"present", Option.some "cert1", "/", Option.none, Option.none,
      Option.some "BODY1", Option.some "K", Option.none, false⟩
    ⟨[⟨"alpha", "BODY1", "/", "id1", "d1", "e1"⟩], [], "boom", "fid", "fdate", "fexp"⟩
    "cert1" "BODY1" "K" rfl rfl rfl rfl rfl rfl rfl (by simp) rfl
    ⟨⟨"alpha", "BODY1", "/", "id1", "d1", "e1"⟩, by simp, rfl⟩

theorem truthy_some {s : String} (h : s ≠ "") : truthy (Option.some s) = true := by
  cases he : s.isEmpty
  · simp [truthy, he]
  · exact absurd ((String.isEmpty_iff s).mp he) h

/-- Claim C7: for an update-determined present-state invocation (name stored
with a CR-normalized matching body) where both new_name and new_path are
given, the module issues a single rename-and-move call and exits with
changed=true reporting original and new name, original and new path, and
the unchanged stored body and dates. -/
theorem C7_rename_and_move (p : Params) (iam : Iam) (n nn np c k : String) (r : CertRecord)
    (hstate : p.state = "present") (hname : p.name = Option.some n)
    (hcert : p.cert = Option.some c) (hkey : p.key = Option.some k)
    (hnn : p.newNameParam = Option.some nn) (hnnne : nn ≠ n) (hnne : nn ≠ "")
    (hnp : p.newPathParam = Option.some np) (hnpne : np ≠ p.path) (hnpe : np ≠ "")
    (hfail : iam.failCalls = [])
    (hr : lookupCert iam.certs n = Option.some r)
    (hbody : stripCR r.body = stripCR c) :
    (mainRun p iam).outcome = Outcome.exitJson
        [("changed", PyVal.bool true), ("original_name", PyVal.str n),
         ("new_name", PyVal.str nn), ("original_path", PyVal.str r.path),
         ("new_path", PyVal.str np), ("cert_body", PyVal.str r.body),
         ("upload_date", PyVal.str r.uploadDate), ("expiration_date", PyVal.str r.expiration)] ∧
      mutCalls (mainRun p iam).ctx.calls =
        [RemoteCall.updateServerCert (Option.some n) (Option.some nn) (Option.some np)] := by
  have hnmem : n ∈ iam.certs.map (fun q => q.name) := mem_names_of_lookupCert hr
  obtain ⟨i, hi⟩ := listIndex_of_mem hnmem
  have hgi := listIndex_get hi
  have hbi : ((iam.certs.map (fun q => q.name)).map (bodyOf iam.certs))[i]? =
      Option.some r.body := by
    rw [List.getElem?_map, hgi]
    simp [bodyOf, hr]
  have hdup := dup_check_update hi hbi hbody (Option.some nn) p.dupOk
  simp only [List.map_map] at hdup
  have hnn2 : normNewName p = Option.some nn := by simp [normNewName, hnn, hname, hnnne]
  have hnp2 : normNewPath p = Option.some np := by simp [normNewPath, hnp, hnpne]
  rw [mainRun_present hstate hcert hkey hfail, hname, hnn2, hnp2, hstate]
  simp [cert_action, hdup, presentUpdate, cert_meta_ok hfail hr, truthy_some hnne,
    truthy_some hnpe, update_ok (Option.some nn) (Option.some np) hfail hr, optVal, wrapBoto,
    mutCalls_append, mutCalls_fetchTrace, mutCalls_cons_get, mutCalls_cons_update, mutCalls_nil]

/-- Witness for C7 at the spec's concrete scenario
(inventory [(alpha, BODY1)], rename to beta, move to /new/). -/
theorem C7_rename_and_move_witness :
    (mainRun
        ⟨"present", Option.some "alpha", "/", Option.some "beta", Option.some "/new/",
          Option.some "BODY1", Option.some "K", Option.none, false⟩
        ⟨[⟨"alpha", "BODY1", "/", "id1", "d1", "e1"⟩], [], "boom", "fid", "fdate", "fexp"⟩).outcome =
      Outcome.exitJson
        [("changed", PyVal.bool true), ("original_name", PyVal.str "alpha"),
         ("new_name", PyVal.str "beta"), ("original_path", PyVal.str "/"),
         ("new_path", PyVal.str "/new/"), ("cert_body", PyVal.str "BODY1"),
         ("upload_date", PyVal.str "d1"), ("expiration_date", PyVal.str "e1")] ∧
      mutCalls (mainRun
        ⟨"present", Option.some "alpha", "/", Option.some "beta", Option.some "/new/",
          Option.some "BODY1", Option.some "K", Option.none, false⟩
        ⟨[⟨"alpha", "BODY1", "/", "id1", "d1", "e1"⟩], [], "boom", "fid", "fdate", "fexp"⟩).ctx.calls =
        [RemoteCall.updateServerCert (Option.some "alpha") (Option.some "beta")
          (Option.some "/new/")] :=
  C7_rename_and_move
    ⟨"present", Option.some "alpha", "/", Option.some "beta", Option.some "/new/",
      Option.some "BODY1", Option.some "K", Option.none, false⟩
    ⟨[⟨"alpha", "BODY1", "/", "id1", "d1", "e1"⟩], [], "boom", "fid", "fdate", "fexp"⟩
    "alpha" "beta" "/new/" "BODY1" "K" ⟨"alpha", "BODY1", "/", "id1", "d1", "e1"⟩
    rfl rfl rfl rfl rfl (by decide) (by decide) rfl (by decide) (by decide) rfl (by rfl) (by rfl)

/-- Claim C9: for state=absent, if the name is stored the module issues one
delete call and exits changed=true, and a second absent run against the
post-delete state exits changed=false with the already-absent message; if
the name is not stored, the module exits changed=false with that message
and issues no mutating call. -/
theorem C9_absent_idempotent (p : Params) (iam : Iam) (n : String)
    (hstate : p.state = "absent") (hname : p.name = Option.some n)
    (hfail : iam.failCalls = []) :
    (n ∈ iam.certs.map (fun q => q.name) →
      (mainRun p iam).outcome = Outcome.exitJson
          [("changed", PyVal.bool true), ("deleted_cert", PyVal.str n)] ∧
        mutCalls (mainRun p iam).ctx.calls = [RemoteCall.deleteServerCert (Option.some n)] ∧
        (mainRun p (mainRun p iam).ctx.iam).outcome = Outcome.exitJson
          [("changed", PyVal.bool false), ("msg", PyVal.str (absentMsg (Option.some n)))]) ∧
    (n ∉ iam.certs.map (fun q => q.name) →
      (mainRun p iam).outcome = Outcome.exitJson
          [("changed", PyVal.bool false), ("msg", PyVal.str (absentMsg (Option.some n)))] ∧
        mutCalls (mainRun p iam).ctx.calls = []) := by
  constructor
  · intro hmem
    obtain ⟨r, hr⟩ := lookupCert_isSome_of_mem hmem
    have hrun1 : mainRun p iam =
        ⟨Outcome.exitJson [("changed", PyVal.bool true), ("deleted_cert", PyVal.str n)],
          ⟨{ iam with certs := iam.certs.filter (fun q => !(q.name == n)) },
            fetchTrace iam ++ [RemoteCall.deleteServerCert (Option.some n)]⟩⟩ := by
      rw [mainRun_absent hstate hfail, hname, hstate]
      simp [cert_action, absentAction, optMem, hmem, delete_ok hfail hr, optVal, wrapBoto]
    have hfail2 : ({ iam with certs := iam.certs.filter (fun q => !(q.name == n)) } : Iam).failCalls = [] := hfail
    have hnot2 : n ∉ ({ iam with certs := iam.certs.filter (fun q => !(q.name == n)) } : Iam).certs.map
        (fun q => q.name) := by
      intro hm
      obtain ⟨q, hq, hqn⟩ := List.mem_map.mp hm
      have hflt := (List.mem_filter.mp hq).2
      rw [hqn] at hflt
      simp at hflt
    refine ⟨by rw [hrun1], ?_, ?_⟩
    · rw [hrun1]
      simp [mutCalls_append, mutCalls_fetchTrace, mutCalls_cons_delete, mutCalls_nil]
    · rw [hrun1]
      rw [mainRun_absent hstate hfail2, hname, hstate]
      simp [cert_action, absentAction, optMem, hnot2, wrapBoto]
  · intro hnot
    rw [mainRun_absent hstate hfail, hname, hstate]
    simp [cert_action, absentAction, optMem, hnot, wrapBoto, mutCalls_fetchTrace]

/-- Witness for C9 at a concrete input (delete alpha, then re-run against
the post-delete state). -/
theorem C9_absent_idempotent_witness :
    (mainRun
        ⟨"absent", Option.some "alpha", "/", Option.none, Option.none,
          Option.none, Option.none, Option.none, false⟩
        ⟨[⟨"alpha", "BODY1", "/", "id1", "d1", "e1"⟩], [], "boom", "fid", "fdate", "fexp"⟩).outcome =
      Outcome.exitJson [("changed", PyVal.bool true), ("deleted_cert", PyVal.str "alpha")] ∧
      mutCalls (mainRun
        ⟨"absent", Option.some "alpha", "/", Option.none, Option.none,
          Option.none, Option.none, Option.none, false⟩
        ⟨[⟨"alpha", "BODY1", "/", "id1", "d1", "e1"⟩], [], "boom", "fid", "fdate", "fexp"⟩).ctx.calls =
        [RemoteCall.deleteServerCert (Option.some "alpha")] ∧
      (mainRun
        ⟨"absent", Option.some "alpha", "/", Option.none, Option.none,
          Option.none, Option.none, Option.none, false⟩
        (mainRun
          ⟨"absent", Option.some "alpha", "/", Option.none, Option.none,
            Option.none, Option.none, Option.none, false⟩
          ⟨[⟨"alpha", "BODY1", "/", "id1", "d1", "e1"⟩], [], "boom", "fid", "fdate", "fexp"⟩).ctx.iam).outcome =
        Outcome.exitJson
          [("changed", PyVal.bool false), ("msg", PyVal.str (absentMsg (Option.some "alpha")))] :=
  (C9_absent_idempotent
    ⟨"absent", Option.some "alpha", "/", Option.none, Option.none,
      Option.none, Option.none, Option.none, false⟩
    ⟨[⟨"alpha", "BODY1", "/", "id1", "d1", "e1"⟩], [], "boom", "fid", "fdate", "fexp"⟩
    "alpha" rfl rfl rfl).1 (by simp)

/-- Claim C10: for state=present with the cert parameter unset, `main` reads
the never-assigned local `cert` when calling `cert_action`, so the run dies
with an UnboundLocalError before any reconciliation (and before any
mutating remote call). -/
theorem C10_unbound_cert (p : Params) (iam : Iam)
    (hstate : p.state = "present") (hcert : p.cert = Option.none)
    (hfail : iam.failCalls = []) :
    (mainRun p iam).outcome =
        Outcome.pyError "UnboundLocalError: local variable cert referenced before assignment" ∧
      mutCalls (mainRun p iam).ctx.calls = [] := by
  rw [mainRun, fetchInventory_ok hfail]
  simp [bindPresent, hstate, hcert, mutCalls_fetchTrace]

/-- Witness for C10 at a concrete input (present-state run with no cert). -/
theorem C10_unbound_cert_witness :
    (mainRun
        ⟨"present", Option.some "c1", "/", Option.none, Option.none,
          Option.none, Option.some "K", Option.none, false⟩
        ⟨[⟨"alpha", "BODY1", "/", "id1", "d1", "e1"⟩], [], "boom", "fid", "fdate", "fexp"⟩).outcome =
        Outcome.pyError "UnboundLocalError: local variable cert referenced before assignment" ∧
      mutCalls (mainRun
        ⟨"present", Option.some "c1", "/", Option.none, Option.none,
          Option.none, Option.some "K", Option.none, false⟩
        ⟨[⟨"alpha", "BODY1", "/", "id1", "d1", "e1"⟩], [], "boom", "fid", "fdate", "fexp"⟩).ctx.calls = [] :=
  C10_unbound_cert
    ⟨"present", Option.some "c1", "/", Option.none, Option.none,
      Option.none, Option.some "K", Option.none, false⟩
    ⟨[⟨"alpha", "BODY1", "/", "id1", "d1", "e1"⟩], [], "boom", "fid", "fdate", "fexp"⟩
    rfl rfl rfl

/-- Claim C1 is violated by the code: when the upload fails with a remote
service error, `main`'s handler reports the failure with
`debug=[cert, key]`, so the supplied private key ("SECRETKEY" here) appears
verbatim in the failure payload, although the `key` parameter is declared
`no_log=True`. -/
theorem C1_failure_payload_contains_key :
    (mainRun
        ⟨"present", Option.some "c1", "/", Option.none, Option.none,
          Option.some "CERTBODY", Option.some "SECRETKEY", Option.none, false⟩
        ⟨[], [RemoteCall.uploadServerCert (Option.some "c1") (Option.some "CERTBODY")
            (Option.some "SECRETKEY") Option.none "/"],
          "ServerError 500", "fid", "fdate", "fexp"⟩).outcome =
      Outcome.failJson
        [("changed", PyVal.bool false), ("msg", PyVal.str "ServerError 500"),
         ("debug", PyVal.olist [Option.some "CERTBODY", Option.some "SECRETKEY"])] := by
  rfl

/-- Claim C6 is violated by the code: with inventory [(beta, BODY)], name
alpha, new_name beta and a matching body, `orig_cert_names.index("alpha")`
raises ValueError, which the `except NameError` clause does not catch, so
the run crashes instead of being treated as an update; no mutating call is
issued. -/
theorem C6_new_name_lookup_value_error :
    (mainRun
        ⟨"present", Option.some "alpha", "/", Option.some "beta", Option.none,
          Option.some "BODY", Option.some "K", Option.none, false⟩
        ⟨[⟨"beta", "BODY", "/", "id1", "d1", "e1"⟩], [], "boom", "fid", "fdate", "fexp"⟩).outcome =
        Outcome.pyError "ValueError: alpha is not in list" ∧
      mutCalls (mainRun
        ⟨"present", Option.some "alpha", "/", Option.some "beta", Option.none,
          Option.some "BODY", Option.some "K", Option.none, false⟩
        ⟨[⟨"beta", "BODY", "/", "id1", "d1", "e1"⟩], [], "boom", "fid", "fdate", "fexp"⟩).ctx.calls = [] :=
  ⟨rfl, rfl⟩

/-! ## Trace lemmas for arbitrary executions (towards claim C8) -/

theorem callsOf_get (ctx : Ctx) (nm : Option String) :
    CallOut.callsOf (get_server_certificate ctx nm) =
      ctx.calls ++ [RemoteCall.getServerCertificate nm] := by
  simp only [get_server_certificate]
  split
  · rfl
  · split
    · rfl
    · split <;> rfl

theorem callsOf_upload (ctx : Ctx) (nm c k ch : Option String) (pa : String) :
    CallOut.callsOf (upload_server_cert ctx nm c k ch pa) =
      ctx.calls ++ [RemoteCall.uploadServerCert nm c k ch pa] := by
  simp only [upload_server_cert]
  split
  · rfl
  · split <;> rfl

theorem callsOf_update (ctx : Ctx) (nm nn np : Option String) :
    CallOut.callsOf (update_server_cert ctx nm nn np) =
      ctx.calls ++ [RemoteCall.updateServerCert nm nn np] := by
  simp only [update_server_cert]
  split
  · rfl
  · split
    · rfl
    · split <;> rfl

theorem callsOf_delete (ctx : Ctx) (nm : Option String) :
    CallOut.callsOf (delete_server_cert ctx nm) =
      ctx.calls ++ [RemoteCall.deleteServerCert nm] := by
  simp only [delete_server_cert]
  split
  · rfl
  · split
    · rfl
    · split <;> rfl

theorem mut_get (ctx : Ctx) (nm : Option String) :
    mutCalls (CallOut.callsOf (get_server_certificate ctx nm)) = mutCalls ctx.calls := by
  rw [callsOf_get]
  simp [mutCalls_append, mutCalls_cons_get, mutCalls_nil]

theorem mut_upload (ctx : Ctx) (nm c k ch : Option String) (pa : String) :
    mutCalls (CallOut.callsOf (upload_server_cert ctx nm c k ch pa)) =
      mutCalls ctx.calls ++ [RemoteCall.uploadServerCert nm c k ch pa] := by
  rw [callsOf_upload]
  simp [mutCalls_append, mutCalls_cons_upload, mutCalls_nil]

theorem mut_update (ctx : Ctx) (nm nn np : Option String) :
    mutCalls (CallOut.callsOf (update_server_cert ctx nm nn np)) =
      mutCalls ctx.calls ++ [RemoteCall.updateServerCert nm nn np] := by
  rw [callsOf_update]
  simp [mutCalls_append, mutCalls_cons_update, mutCalls_nil]

theorem mut_delete (ctx : Ctx) (nm : Option String) :
    mutCalls (CallOut.callsOf (delete_server_cert ctx nm)) =
      mutCalls ctx.calls ++ [RemoteCall.deleteServerCert nm] := by
  rw [callsOf_delete]
  simp [mutCalls_append, mutCalls_cons_delete, mutCalls_nil]

theorem mut_cert_meta (ctx : Ctx) (nm : Option String) :
    mutCalls (CallOut.callsOf (cert_meta ctx nm)) = mutCalls ctx.calls := by
  unfold cert_meta
  cases hg1 : get_server_certificate ctx nm with
  | botoErr m c =>
    have h1 := mut_get ctx nm
    rw [hg1] at h1
    exact h1
  | ok r1 c1 =>
    have h1 := mut_get ctx nm
    rw [hg1] at h1
    simp only [CallOut.callsOf] at h1
    try dsimp only
    cases hg2 : get_server_certificate c1 nm with
    | botoErr m c =>
      have h2 := mut_get c1 nm
      rw [hg2] at h2
      simp only [CallOut.callsOf] at h2 ⊢
      exact h2.trans h1
    | ok r2 c2 =>
      have h2 := mut_get c1 nm
      rw [hg2] at h2
      simp only [CallOut.callsOf] at h2
      try dsimp only
      cases hg3 : get_server_certificate c2 nm with
      | botoErr m c =>
        have h3 := mut_get c2 nm
        rw [hg3] at h3
        simp only [CallOut.callsOf] at h3 ⊢
        exact (h3.trans h2).trans h1
      | ok r3 c3 =>
        have h3 := mut_get c2 nm
        rw [hg3] at h3
        simp only [CallOut.callsOf] at h3
        try dsimp only
        cases hg4 : get_server_certificate c3 nm with
        | botoErr m c =>
          have h4 := mut_get c3 nm
          rw [hg4] at h4
          simp only [CallOut.callsOf] at h4 ⊢
          exact ((h4.trans h3).trans h2).trans h1
        | ok r4 c4 =>
          have h4 := mut_get c3 nm
          rw [hg4] at h4
          simp only [CallOut.callsOf] at h4
          try dsimp only
          cases hg5 : get_server_certificate c4 nm with
          | botoErr m c =>
            have h5 := mut_get c4 nm
            rw [hg5] at h5
            simp only [CallOut.callsOf] at h5 ⊢
            exact (((h5.trans h4).trans h3).trans h2).trans h1
          | ok r5 c5 =>
            have h5 := mut_get c4 nm
            rw [hg5] at h5
            simp only [CallOut.callsOf] at h5 ⊢
            exact (((h5.trans h4).trans h3).trans h2).trans h1

theorem mut_fetchBodies (ns : List String) :
    ∀ ctx : Ctx, mutCalls (CallOut.callsOf (fetchBodies ctx ns)) = mutCalls ctx.calls := by
  induction ns with
  | nil => intro ctx; simp [fetchBodies, CallOut.callsOf]
  | cons n rest ih =>
    intro ctx
    rw [fetchBodies]
    cases hg : get_server_certificate ctx (Option.some n) with
    | botoErr m c =>
      have h1 := mut_get ctx (Option.some n)
      rw [hg] at h1
      exact h1
    | ok r c =>
      have h1 := mut_get ctx (Option.some n)
      rw [hg] at h1
      simp only [CallOut.callsOf] at h1
      try dsimp only
      cases hf : fetchBodies c rest with
      | botoErr m c2 =>
        have h2 := ih c
        rw [hf] at h2
        simp only [CallOut.callsOf] at h2 ⊢
        exact h2.trans h1
      | ok bs c2 =>
        have h2 := ih c
        rw [hf] at h2
        simp only [CallOut.callsOf] at h2 ⊢
        exact h2.trans h1

theorem mut_fetchInventory (ctx : Ctx) :
    mutCalls (CallOut.callsOf (fetchInventory ctx)) = mutCalls ctx.calls := by
  simp only [fetchInventory]
  split
  · simp [CallOut.callsOf, mutCalls_append, mutCalls_cons_getAll, mutCalls_nil]
  · cases hf : fetchBodies ⟨ctx.iam, ctx.calls ++ [RemoteCall.getAllServerCerts]⟩
        (ctx.iam.certs.map (fun r => r.name)) with
    | botoErr m c =>
      have h := mut_fetchBodies (ctx.iam.certs.map (fun r => r.name))
        ⟨ctx.iam, ctx.calls ++ [RemoteCall.getAllServerCerts]⟩
      rw [hf] at h
      simp only [CallOut.callsOf] at h ⊢
      rw [h]
      simp [mutCalls_append, mutCalls_cons_getAll, mutCalls_nil]
    | ok bs c =>
      have h := mut_fetchBodies (ctx.iam.certs.map (fun r => r.name))
        ⟨ctx.iam, ctx.calls ++ [RemoteCall.getAllServerCerts]⟩
      rw [hf] at h
      simp only [CallOut.callsOf] at h ⊢
      rw [h]
      simp [mutCalls_append, mutCalls_cons_getAll, mutCalls_nil]

theorem mutCount_eq_of_mutCalls {l1 l2 : List RemoteCall} (h : mutCalls l1 = mutCalls l2) :
    mutCount l1 = mutCount l2 :=
  congrArg List.length h

theorem mut_presentUpdate (ctx : Ctx) (nm nn np : Option String) :
    mutCount (presentUpdate ctx nm nn np).ctx.calls ≤ mutCount ctx.calls + 1 := by
  unfold presentUpdate
  cases hm : cert_meta ctx nm with
  | botoErr m c =>
    have h := mut_cert_meta ctx nm
    rw [hm] at h
    simp only [CallOut.callsOf] at h
    have := mutCount_eq_of_mutCalls h
    try dsimp only
    omega
  | ok meta c =>
    have h := mut_cert_meta ctx nm
    rw [hm] at h
    simp only [CallOut.callsOf] at h
    have hc := mutCount_eq_of_mutCalls h
    obtain ⟨opath, ocert, oid, odate, oexp⟩ := meta
    try dsimp only
    split
    · cases hu : update_server_cert c nm nn np with
      | botoErr m2 c2 =>
        have h2 := mut_update c nm nn np
        rw [hu] at h2
        simp only [CallOut.callsOf] at h2
        have : mutCount c2.calls = mutCount c.calls + 1 := by
          unfold mutCount
          rw [h2]
          simp
        try dsimp only
        try dsimp only
        omega
      | ok u c2 =>
        have h2 := mut_update c nm nn np
        rw [hu] at h2
        simp only [CallOut.callsOf] at h2
        have : mutCount c2.calls = mutCount c.calls + 1 := by
          unfold mutCount
          rw [h2]
          simp
        try dsimp only
        try dsimp only
        omega
    · split
      · cases hu : update_server_cert c nm nn Option.none with
        | botoErr m2 c2 =>
          have h2 := mut_update c nm nn Option.none
          rw [hu] at h2
          simp only [CallOut.callsOf] at h2
          have : mutCount c2.calls = mutCount c.calls + 1 := by
            unfold mutCount
            rw [h2]
            simp
          try dsimp only
          try dsimp only
          omega
        | ok u c2 =>
          have h2 := mut_update c nm nn Option.none
          rw [hu] at h2
          simp only [CallOut.callsOf] at h2
          have : mutCount c2.calls = mutCount c.calls + 1 := by
            unfold mutCount
            rw [h2]
            simp
          try dsimp only
          try dsimp only
          omega
      · split
        · cases hu : update_server_cert c nm Option.none np with
          | botoErr m2 c2 =>
            have h2 := mut_update c nm Option.none np
            rw [hu] at h2
            simp only [CallOut.callsOf] at h2
            have : mutCount c2.calls = mutCount c.calls + 1 := by
              unfold mutCount
              rw [h2]
              simp
            try dsimp only
            try dsimp only
            omega
          | ok u c2 =>
            have h2 := mut_update c nm Option.none np
            rw [hu] at h2
            simp only [CallOut.callsOf] at h2
            have : mutCount c2.calls = mutCount c.calls + 1 := by
              unfold mutCount
              rw [h2]
              simp
            try dsimp only
            try dsimp only
            omega
        · try dsimp only
          try dsimp only
          omega

theorem mut_presentCreate (ctx : Ctx) (nm : Option String) (cpath : String)
    (cert key chain : Option String) :
    mutCount (presentCreate ctx nm cpath cert key chain).ctx.calls ≤ mutCount ctx.calls + 1 := by
  unfold presentCreate
  cases hu : upload_server_cert ctx nm cert key chain cpath with
  | botoErr m c =>
    have h := mut_upload ctx nm cert key chain cpath
    rw [hu] at h
    simp only [CallOut.callsOf] at h
    have : mutCount c.calls = mutCount ctx.calls + 1 := by
      unfold mutCount
      rw [h]
      simp
    try dsimp only
    try dsimp only
    omega
  | ok u c =>
    have h := mut_upload ctx nm cert key chain cpath
    rw [hu] at h
    simp only [CallOut.callsOf] at h
    have h1 : mutCount c.calls = mutCount ctx.calls + 1 := by
      unfold mutCount
      rw [h]
      simp
    try dsimp only
    cases hm : cert_meta c nm with
    | botoErr m2 c2 =>
      have h2 := mut_cert_meta c nm
      rw [hm] at h2
      simp only [CallOut.callsOf] at h2
      have := mutCount_eq_of_mutCalls h2
      try dsimp only
      try dsimp only
      omega
    | ok meta c2 =>
      have h2 := mut_cert_meta c nm
      rw [hm] at h2
      simp only [CallOut.callsOf] at h2
      have := mutCount_eq_of_mutCalls h2
      obtain ⟨opath, ocert, oid, odate, oexp⟩ := meta
      try dsimp only
      try dsimp only
      omega

theorem mut_absentAction (ctx : Ctx) (nm : Option String) (names : List String) :
    mutCount (absentAction ctx nm names).ctx.calls ≤ mutCount ctx.calls + 1 := by
  unfold absentAction
  split
  · cases hd : delete_server_cert ctx nm with
    | botoErr m c =>
      have h := mut_delete ctx nm
      rw [hd] at h
      simp only [CallOut.callsOf] at h
      have : mutCount c.calls = mutCount ctx.calls + 1 := by
        unfold mutCount
        rw [h]
        simp
      try dsimp only
      try dsimp only
      omega
    | ok u c =>
      have h := mut_delete ctx nm
      rw [hd] at h
      simp only [CallOut.callsOf] at h
      have : mutCount c.calls = mutCount ctx.calls + 1 := by
        unfold mutCount
        rw [h]
        simp
      try dsimp only
      try dsimp only
      omega
  · try dsimp only
    try dsimp only
    omega

theorem mut_cert_action (ctx : Ctx) (nm : Option String) (cpath : String)
    (nn np : Option String) (state : String) (cert key chain : Option String)
    (names bodies : List String) (dupOk : Bool) :
    mutCount (cert_action ctx nm cpath nn np state cert key chain names bodies dupOk).ctx.calls ≤
      mutCount ctx.calls + 1 := by
  unfold cert_action
  split
  · split
    · try dsimp only
      try dsimp only
      omega
    · try dsimp only
      try dsimp only
      omega
    · exact mut_presentUpdate ctx nm nn np
    · exact mut_presentCreate ctx nm cpath cert key chain
  · split
    · exact mut_absentAction ctx nm names
    · try dsimp only
      try dsimp only
      omega

theorem wrapBoto_ctx (a b : Option String) (r : ActionResult) :
    (wrapBoto a b r).ctx = r.ctx := by
  unfold wrapBoto
  split <;> rfl

/-- Claim C8: every invocation issues at most one mutating remote call
(upload, update or delete); every other call in the trace is a read-only
metadata fetch. -/
theorem C8_at_most_one_mutating_call (p : Params) (iam : Iam) :
    mutCount (mainRun p iam).ctx.calls ≤ 1 := by
  unfold mainRun
  cases hf : fetchInventory ⟨iam, []⟩ with
  | botoErr m c =>
    have h := mut_fetchInventory ⟨iam, []⟩
    rw [hf] at h
    simp only [CallOut.callsOf] at h
    have := mutCount_eq_of_mutCalls h
    have hz : mutCount ([] : List RemoteCall) = 0 := rfl
    try dsimp only
    try dsimp only
    omega
  | ok pr c =>
    have h := mut_fetchInventory ⟨iam, []⟩
    rw [hf] at h
    simp only [CallOut.callsOf] at h
    have h0 : mutCount c.calls = 0 := by
      have := mutCount_eq_of_mutCalls h
      simpa [mutCount, mutCalls] using this
    obtain ⟨origCerts, origBodies⟩ := pr
    try dsimp only
    cases bindPresent p.state p.cert with
    | none =>
      try dsimp only
      try dsimp only
      omega
    | some cert =>
      try dsimp only
      cases bindPresent p.state p.key with
      | none =>
        try dsimp only
        try dsimp only
        omega
      | some key =>
        try dsimp only
        have ha := mut_cert_action c p.name p.path (normNewName p) (normNewPath p) p.state
          cert key p.certChain origCerts origBodies p.dupOk
        simp only [wrapBoto_ctx]
        try dsimp only
        omega

end IamCert
